import Mathlib

/-!
Shallow embedding of the `inflation_report` package
(`src/inflation_report/{config, constants, data, analysis, forecasting}.py`).

Conventions of the embedding:
* pandas floating-point values are modelled as `Rat`; the two places where a
  genuine real-valued square root is taken (`pandas.Series.std`,
  `numpy.std(..., ddof=1)`) are parameterized by a `sqrtFn : Rat → Rat`
  argument standing for the floating-point square root applied to the exact
  rational sample variance;
* the statsmodels `ExponentialSmoothing` fit is not re-implemented: it is a
  parameter (`HWOracle`) that either fails (the `except` path of
  `forecast_inflation`) or returns a forecast function and a residual
  standard deviation;
* calendar dates are month-granular (`Date`), matching the `%Y-%m` parsing
  of the reshaper;
* pandas sorts are modelled with the stable `List.insertionSort`; no claim
  in scope depends on the ordering of rows that share the sort key.
-/

/-- A month-granular calendar date (`month` ranges over 1..12 for dates built
by the reshaper or by `Date.addMonths` from such dates). -/
structure Date where
  year : Nat
  month : Nat
deriving DecidableEq

/-- Linear month index used to order dates and to add calendar months. -/
def Date.idx (d : Date) : Nat := d.year * 12 + (d.month - 1)

/-- Inverse of `Date.idx` on canonical dates. -/
def Date.ofIdx (n : Nat) : Date := ⟨n / 12, n % 12 + 1⟩

/-- Models `pd.DateOffset(months = k)` on month-start dates: calendar-month
addition, rolling over December into January of the next year. -/
def Date.addMonths (d : Date) (k : Nat) : Date := Date.ofIdx (d.idx + k)

instance : LE Date := ⟨fun a b => a.idx ≤ b.idx⟩

instance : LT Date := ⟨fun a b => a.idx < b.idx⟩

instance (a b : Date) : Decidable (a ≤ b) := by
  change Decidable (a.idx ≤ b.idx); infer_instance

instance (a b : Date) : Decidable (a < b) := by
  change Decidable (a.idx < b.idx); infer_instance

theorem Date.le_def (a b : Date) : a ≤ b ↔ a.idx ≤ b.idx := Iff.rfl

theorem Date.lt_def (a b : Date) : a < b ↔ a.idx < b.idx := Iff.rfl

/-- One tidy observation row, as produced by `process_inflation_data`
(columns: date, year, geo, country, coicop, category, inflation_rate). -/
structure Obs where
  date : Date
  year : Nat
  geo : String
  country : String
  coicop : String
  category : Option String
  rate : Rat
deriving DecidableEq

/-- The `ReportConfig` of `config.py` (the `countries` list and the typed date
and window fields actually consumed by the embedded components). -/
structure ReportConfig where
  countries : List String
  analysisStartDate : Date
  historicalStartDate : Date
  forecastMonths : Nat
  forecastTrainingWindow : Nat
  forecastDisplayLimit : Date
deriving DecidableEq

/-- The `DEFAULT_CONFIG` mapping of `config.py`. -/
def defaultConfig : ReportConfig :=
  { countries := ["AT", "DE", "EA20"]
  , analysisStartDate := ⟨2020, 1⟩
  , historicalStartDate := ⟨2002, 1⟩
  , forecastMonths := 12
  , forecastTrainingWindow := 24
  , forecastDisplayLimit := ⟨2026, 3⟩ }

/-- The `COICOP_CATEGORIES` list of `constants.py`. -/
def COICOP_CATEGORIES : List String := ["CP00", "FOOD", "NRG", "IGD", "SERV"]

/-- The `COUNTRY_NAMES` mapping of `constants.py`. -/
def COUNTRY_NAMES : List (String × String) :=
  [("EA19", "Eurozone"), ("EA20", "Eurozone"), ("EA", "Eurozone"),
   ("AT", "Österreich"), ("BE", "Belgien"), ("BG", "Bulgarien"),
   ("HR", "Kroatien"), ("CY", "Zypern"), ("CZ", "Tschechien"),
   ("DK", "Dänemark"), ("EE", "Estland"), ("FI", "Finnland"),
   ("FR", "Frankreich"), ("DE", "Deutschland"), ("EL", "Griechenland"),
   ("GR", "Griechenland"), ("HU", "Ungarn"), ("IE", "Irland"),
   ("IT", "Italien"), ("LT", "Litauen"), ("LU", "Luxemburg"),
   ("LV", "Lettland"), ("MT", "Malta"), ("NL", "Niederlande"),
   ("PL", "Polen"), ("PT", "Portugal"), ("RO", "Rumänien"),
   ("SE", "Schweden"), ("SI", "Slowenien"), ("SK", "Slowakei"),
   ("ES", "Spanien")]

/-- The `CATEGORY_NAMES` mapping of `constants.py`. -/
def CATEGORY_NAMES : List (String × String) :=
  [("CP00", "Gesamtinflation"), ("FOOD", "Nahrungsmittel, Alkohol & Tabak"),
   ("NRG", "Energie"), ("IGD", "Industriegüter (ohne Energie)"),
   ("SERV", "Dienstleistungen")]

/-- First-value association-list lookup (used for the Python dict constants
and for the dict results of the analysis functions). -/
def lookupKey {β : Type} (k : String) : List (String × β) → Option β
  | [] => none
  | (k', v) :: rest => if k' = k then some v else lookupKey k rest

/-- Python `dict` assignment `d[k] = v`: replaces the value in place when the
key exists (keeping its insertion position), appends otherwise. -/
def upsert {β : Type} (k : String) (v : β) : List (String × β) → List (String × β)
  | [] => [(k, v)]
  | (k', v') :: rest => if k' = k then (k, v) :: rest else (k', v') :: upsert k v rest

/-- Models `pandas.Series.unique`: values in order of first appearance. -/
def uniqueFirst {α : Type} [DecidableEq α] : List α → List α
  | [] => []
  | x :: xs => x :: (uniqueFirst xs).filter (fun y => y ≠ x)

/-- The `_country_label` helper of `data.py` (the optional `pycountry` enrichment is
modelled as unavailable, as in an offline environment; no claim consults a
code outside `COUNTRY_NAMES`). -/
def countryLabel (code : String) : String :=
  if code = "" then code
  else if code = "FR" then "Frankreich"
  else match lookupKey code COUNTRY_NAMES with
    | some n => n
    | none => code

/-- Splits a character list on the dash character (the separator of period
labels such as "2020-07"). -/
def splitDash : List Char → List (List Char)
  | [] => [[]]
  | c :: rest =>
    let r := splitDash rest
    if c = '-' then [] :: r
    else match r with
      | h :: t => (c :: h) :: t
      | [] => [[c]]

/-- Parses a non-empty all-digit character list as a natural number. -/
def digits? (cs : List Char) : Option Nat :=
  match cs with
  | [] => none
  | _ =>
    cs.foldl (fun acc c =>
      match acc with
      | some n => if '0' ≤ c ∧ c ≤ '9' then some (n * 10 + (c.toNat - '0'.toNat)) else none
      | none => none) (some 0)

/-- Models `pd.to_datetime(_, format="%Y-%m", errors="coerce")` on a period label:
a year, a dash, and a month in 1..12, digits only; `none` models `NaT`. -/
def parseYM (s : String) : Option Date :=
  match splitDash s.toList with
  | [y, m] =>
    match digits? y, digits? m with
    | some yn, some mn => if 1 ≤ mn ∧ mn ≤ 12 then some ⟨yn, mn⟩ else none
    | _, _ => none
  | _ => none

/-- The time-column test of `process_inflation_data`: the column label
contains a dash. -/
def hasDash (s : String) : Bool := s.toList.contains '-'

/-- Sample variance (denominator `n - 1`), the square of
`np.std(xs, ddof=1)` / `pandas.Series.std()`; `0` stands for the `NaN` these
produce on fewer than two values (no claim evaluates that case). -/
def sampleVar (xs : List Rat) : Rat :=
  if xs.length < 2 then 0
  else
    let n : Rat := (xs.length : Rat)
    let m : Rat := xs.sum / n
    ((xs.map (fun x => (x - m) * (x - m))).sum) / (n - 1)

/-- Ascending order on observation dates, the key of `sort_values("date")`. -/
def Obs.dateLE (a b : Obs) : Prop := a.date ≤ b.date

instance : DecidableRel Obs.dateLE := fun a b => by unfold Obs.dateLE; infer_instance

/-- Descending order on observation dates, the key of
`sort_values("date", ascending=False)`. -/
def Obs.dateGE (a b : Obs) : Prop := b.date ≤ a.date

instance : DecidableRel Obs.dateGE := fun a b => by unfold Obs.dateGE; infer_instance

/-- Models `pandas.Series.median`: middle of the sorted values, or the average of
the two middle values for an even count (`0` stands for `NaN` on an empty
series; never evaluated on one). -/
def medianR (xs : List Rat) : Rat :=
  let s := List.insertionSort (fun a b : Rat => a ≤ b) xs
  let n := xs.length
  if n = 0 then 0
  else if n % 2 = 1 then s.getD (n / 2) 0
  else (s.getD (n / 2 - 1) 0 + s.getD (n / 2) 0) / 2

/-- The per-region record built by `calculate_statistics` (`analysis.py`):
mean, median, min, max, sample standard deviation, and the value and date of
the most recent observation.  `std` is `sqrtFn` applied to the exact sample
variance, modelling `pandas.Series.std()`. -/
structure StatEntry where
  mean : Rat
  median : Rat
  min : Rat
  max : Rat
  std : Rat
  latest : Rat
  latestDate : Date
deriving DecidableEq

/-- The dictionary value computed for one region by `calculate_statistics`
from its (non-empty) filtered rows `r0 :: rest`, in original row order. -/
def statEntry (sqrtFn : Rat → Rat) (r0 : Obs) (rest : List Obs) : StatEntry :=
  let rows := r0 :: rest
  let vals := rows.map (·.rate)
  let sortedDesc := List.insertionSort Obs.dateGE rows
  { mean := vals.sum / (vals.length : Rat)
  , median := medianR vals
  , min := rest.foldl (fun a r => min a r.rate) r0.rate
  , max := rest.foldl (fun a r => max a r.rate) r0.rate
  , std := sqrtFn (sampleVar vals)
  , latest := (sortedDesc.headD r0).rate
  , latestDate := (sortedDesc.headD r0).date }

/-- The `calculate_statistics` function of `analysis.py`: filter to
`date >= config.analysis_start_date`, then per region (in first-appearance
order of the `geo` column) store the `StatEntry` under the region's display
name (`country` of its first filtered row). -/
def calculateStatistics (sqrtFn : Rat → Rat) (cfg : ReportConfig) (df : List Obs) :
    List (String × StatEntry) :=
  let dfFiltered := df.filter (fun r => decide (cfg.analysisStartDate ≤ r.date))
  (uniqueFirst (dfFiltered.map (·.geo))).foldl (fun stats g =>
    match dfFiltered.filter (fun r => r.geo == g) with
    | [] => stats
    | r0 :: rest => upsert r0.country (statEntry sqrtFn r0 rest) stats) []

/-- The per-region record built by `identify_trends` (`analysis.py`). -/
structure TrendEntry where
  highestDate : Date
  highestRate : Rat
  lowestDate : Date
  lowestRate : Rat
deriving DecidableEq

/-- The record built by `identify_trends` from one region's date-sorted
rows `r0 :: rest`: date and value of the first row attaining the maximum
rate (`Series.idxmax`) and of the first row attaining the minimum rate
(`Series.idxmin`). -/
def trendEntry (r0 : Obs) (rest : List Obs) : TrendEntry :=
  let maxRow := rest.foldl (fun b y => if b.rate < y.rate then y else b) r0
  let minRow := rest.foldl (fun b y => if y.rate < b.rate then y else b) r0
  ⟨maxRow.date, maxRow.rate, minRow.date, minRow.rate⟩

/-- The `identify_trends` function of `analysis.py`: per region (no date filtering —
the function does not receive the config at all), sort by date and store
the `trendEntry`, keyed by the region's display name. -/
def identifyTrends (df : List Obs) : List (String × TrendEntry) :=
  (uniqueFirst (df.map (·.geo))).foldl (fun trends g =>
    match List.insertionSort Obs.dateLE (df.filter (fun r => r.geo == g)) with
    | [] => trends
    | r0 :: rest => upsert r0.country (trendEntry r0 rest) trends) []

/-- The failure of `pandas.DataFrame.pivot` on duplicate `(index, columns)`
pairs — the spec's `DuplicateObservationError`. -/
inductive PivotError
  | duplicateObservation
deriving DecidableEq

/-- Whether the all-items rows contain two entries (at distinct positions)
for the same `(date, country)` pair — the condition on which
`DataFrame.pivot(index="date", columns="country")` raises. -/
def pivotHasDup (l : List Obs) : Bool :=
  l.any (fun r =>
    2 ≤ (l.filter (fun s => decide (s.date = r.date) && (s.country == r.country))).length)

/-- One row of the comparison table: the date index, the per-region rate
cells (`none` = `NaN`), and the derived difference and flag cells, `none`
when the derived columns are absent. -/
structure CompRow where
  date : Date
  cells : List (String × Option Rat)
  diff : Option Rat
  higher : Option Bool
deriving DecidableEq

/-- The comparison table of `compare_regions`: date-indexed rows, one rate
column per region display name, and (`hasDiff`) whether the
"Difference (AT - EA)" / "Higher in Austria" columns were added. -/
structure Comparison where
  cols : List String
  rows : List CompRow
  hasDiff : Bool
deriving DecidableEq

/-- The `compare_regions` function of `analysis.py`: restrict to `coicop == "CP00"`,
pivot date × country (raising on duplicate pairs), and add the difference
and flag columns only when both "Österreich" and "Eurozone" are pivot
columns.  The flag cell is `diff > 0`, which is `false` where the
difference is `NaN`. -/
def compareRegions (df : List Obs) : Except PivotError Comparison :=
  let dfOverall := df.filter (fun r => r.coicop == "CP00")
  if pivotHasDup dfOverall then .error .duplicateObservation
  else
    let cols := uniqueFirst (dfOverall.map (·.country))
    let dates := List.insertionSort (fun a b : Date => a ≤ b)
      (uniqueFirst (dfOverall.map (·.date)))
    let cell := fun (d : Date) (c : String) =>
      (dfOverall.find? (fun r => decide (r.date = d) && (r.country == c))).map (·.rate)
    let withDiff := cols.contains "Österreich" && cols.contains "Eurozone"
    let rows := dates.map (fun d =>
      let diffVal := match cell d "Österreich", cell d "Eurozone" with
        | some a, some e => some (a - e)
        | _, _ => none
      { date := d
      , cells := cols.map (fun c => (c, cell d c))
      , diff := if withDiff then diffVal else none
      , higher := if withDiff then
          some (match diffVal with | some v => decide (0 < v) | none => false)
        else none })
    .ok { cols := cols, rows := rows, hasDiff := withDiff }

/-- The statsmodels `ExponentialSmoothing` fit of `_forecast_holt_winters`,
abstracted: from the series values and the horizon, either a failure (any
exception raised by the fit) or a forecast function (0-based future index ↦
value) together with the residual standard deviation of the fit. -/
def HWOracle : Type := List Rat → Nat → Option ((Nat → Rat) × Rat)

/-- The `_forecast_holt_winters` helper of `forecasting.py`: raises when the series has
fewer than 24 periods (two seasonal cycles), otherwise runs the fit. -/
def forecastHoltWinters (hw : HWOracle) (series : List Rat) (periods : Nat) :
    Option ((Nat → Rat) × Rat) :=
  if series.length < 24 then none else hw series periods

/-- Models `LinearRegression().fit` on `x = 0..n-1`, `y = ys`: `(intercept, slope)`
from the ordinary-least-squares normal equations; slope `0` when `x` has no
variance (the minimal-norm least-squares solution sklearn computes). -/
def linRegFit (ys : List Rat) : Rat × Rat :=
  let n : Rat := (ys.length : Rat)
  let xs : List Rat := (List.range ys.length).map (fun i => (i : Rat))
  let sx := xs.sum
  let sy := ys.sum
  let sxx := (xs.map (fun x => x * x)).sum
  let sxy := (List.zipWith (fun x y => x * y) xs ys).sum
  let den := n * sxx - sx * sx
  let slope := if den = 0 then 0 else (n * sxy - sx * sy) / den
  let intercept := if n = 0 then 0 else (sy - slope * sx) / n
  (intercept, slope)

/-- The `_forecast_linear_regression` helper of `forecasting.py`: fit over the whole
series against the zero-based index `0..n-1`; the forecast at future index
`i` is the prediction at `x = n + i`; the residual standard deviation is
`np.std(residuals, ddof=1)`, modelled as `sqrtFn` of the exact sample
variance of the in-sample residuals. -/
def forecastLinearRegression (sqrtFn : Rat → Rat) (ys : List Rat) :
    (Nat → Rat) × Rat :=
  let ab := linRegFit ys
  let preds := (List.range ys.length).map (fun i => ab.1 + ab.2 * (i : Rat))
  let resid := List.zipWith (fun y p => y - p) ys preds
  (fun i => ab.1 + ab.2 * ((ys.length + i : Nat) : Rat), sqrtFn (sampleVar resid))

/-- One output row of `forecast_inflation` (columns: date, geo, country,
inflation_rate, lower_bound, upper_bound). -/
structure FRow where
  date : Date
  geo : String
  country : String
  rate : Rat
  lower : Rat
  upper : Rat
deriving DecidableEq

/-- Ascending order on forecast dates, the key of the final
`sort_values("date")`. -/
def FRow.dateLE (a b : FRow) : Prop := a.date ≤ b.date

instance : DecidableRel FRow.dateLE := fun a b => by unfold FRow.dateLE; infer_instance

/-- The per-region loop body of `forecast_inflation` (`forecasting.py`):
build the date-sorted monthly series (`asfreq("MS")` followed by `dropna()`
is the identity on a series with distinct month-start dates, the reshaper's
output format; duplicate dates, on which pandas raises, are outside the
model's domain), try Holt-Winters, fall back to the linear regression on
any failure, and emit `forecast_months` rows at 1..m calendar months after
the last historical date with `±1.96·resid_std` bounds. -/
def regionForecastRows (hw : HWOracle) (sqrtFn : Rat → Rat) (cfg : ReportConfig)
    (df : List Obs) (g : String) : List FRow :=
  let hist := List.insertionSort Obs.dateLE (df.filter (fun r => r.geo == g))
  match hist.getLast? with
  | none => []
  | some lastRow =>
    let series := hist.map (·.rate)
    let fr := match forecastHoltWinters hw series cfg.forecastMonths with
      | some res => res
      | none => forecastLinearRegression sqrtFn series
    (List.range cfg.forecastMonths).map (fun i =>
      let v := fr.1 i
      { date := lastRow.date.addMonths (i + 1)
      , geo := g
      , country := (lookupKey g COUNTRY_NAMES).getD g
      , rate := v
      , lower := v - (49 / 25) * fr.2
      , upper := v + (49 / 25) * fr.2 })

/-- The `forecast_inflation` function of `forecasting.py`: restrict to all-items rows,
run `regionForecastRows` per unique region, keep rows with
`date <= forecast_display_limit`, and sort by date. -/
def forecastInflation (hw : HWOracle) (sqrtFn : Rat → Rat) (cfg : ReportConfig)
    (dfIn : List Obs) : List FRow :=
  let df := dfIn.filter (fun r => r.coicop == "CP00")
  if df.isEmpty then []
  else
    let results := (uniqueFirst (df.map (·.geo))).flatMap
      (regionForecastRows hw sqrtFn cfg df)
    List.insertionSort FRow.dateLE
      (results.filter (fun r => decide (r.date ≤ cfg.forecastDisplayLimit)))

/-- One identifier row of the reshaper's wide input: the `geo` and `coicop`
id columns as fields, and the value cells aligned positionally with
`WideTable.colNames` (`none` models a cell that `pd.to_numeric(...,
errors="coerce")` turns into `NaN`, missing cells included). -/
structure WideRow where
  geo : String
  coicop : String
  cells : List (Option Rat)
deriving DecidableEq

/-- A wide table: value-column labels plus the id rows. -/
structure WideTable where
  colNames : List String
  rows : List WideRow
deriving DecidableEq

/-- The cell of a row under a column label (first match, as with unique
pandas column labels). -/
def cellAt : List String → List (Option Rat) → String → Option Rat
  | c' :: cs, v :: vs, c => if c' = c then v else cellAt cs vs c
  | _, _, _ => none

/-- One melted row (columns `geo, coicop, period, inflation_rate`). -/
structure LongRow where
  geo : String
  coicop : String
  period : String
  value : Option Rat
deriving DecidableEq

/-- Models `df.melt(id_vars=["geo","coicop"], value_vars=time_columns)`: for each
time column (labels containing a dash), one row per id row, stacked
column-by-column. -/
def meltLong (t : WideTable) : List LongRow :=
  (t.colNames.filter hasDash).flatMap (fun c =>
    t.rows.map (fun r => ⟨r.geo, r.coicop, c, cellAt t.colNames r.cells c⟩))

/-- A melted row after date parsing and numeric coercion both succeeded. -/
structure ParsedRow where
  date : Date
  geo : String
  coicop : String
  rate : Rat
deriving DecidableEq

/-- The `process_inflation_data` function of `data.py`: melt, parse the period to a date
and coerce the value (dropping rows where either fails), keep dates ≥
`historical_start_date`, derive the display columns, and sort by date. -/
def processInflationData (cfg : ReportConfig) (t : WideTable) : List Obs :=
  let long := meltLong t
  let parsed := long.filterMap (fun lr =>
    match parseYM lr.period, lr.value with
    | some d, some v => some (⟨d, lr.geo, lr.coicop, v⟩ : ParsedRow)
    | _, _ => none)
  let windowed := parsed.filter (fun p => decide (cfg.historicalStartDate ≤ p.date))
  let obs := windowed.map (fun p =>
    { date := p.date, year := p.date.year, geo := p.geo
    , country := countryLabel p.geo, coicop := p.coicop
    , category := lookupKey p.coicop CATEGORY_NAMES, rate := p.rate })
  List.insertionSort Obs.dateLE obs

/-- The period labels of `_get_sample_data`:
`pd.date_range("2023-01-01", "2025-10-31", freq="ME")` formatted as
`f"{d.year}-{d.month:02d}"`. -/
def samplePeriods : List String :=
  ["2023-01", "2023-02", "2023-03", "2023-04", "2023-05", "2023-06",
   "2023-07", "2023-08", "2023-09", "2023-10", "2023-11", "2023-12",
   "2024-01", "2024-02", "2024-03", "2024-04", "2024-05", "2024-06",
   "2024-07", "2024-08", "2024-09", "2024-10", "2024-11", "2024-12",
   "2025-01", "2025-02", "2025-03", "2025-04", "2025-05", "2025-06",
   "2025-07", "2025-08", "2025-09", "2025-10"]

/-- The per-period base value of `_get_sample_data` for the row at `idx`
(AT, DE, EA20): 2023 periods get `[6.8, 6.1, 6.1]`, 2024 periods
`[4.2, 3.8, 3.8]`, later ones `[2.8, 2.3, 2.5]`.  The seeded Gaussian noise
term (`default_rng(seed=42).normal(0, 0.35)`) added by the code is omitted:
its floating-point draws are outside the rational model, and with the fixed
seed the dataset is a fixed constant either way. -/
def sampleCell (idx : Nat) (p : String) : Option Rat :=
  match parseYM p with
  | some d =>
    if d.year = 2023 then some ([34/5, 61/10, 61/10].getD idx 0)
    else if d.year = 2024 then some ([21/5, 19/5, 19/5].getD idx 0)
    else some ([14/5, 23/10, 5/2].getD idx 0)
  | none => none

/-- The `_get_sample_data` helper of `data.py`: the deterministic synthetic fallback
dataset — rows AT, DE, EA20, all with `coicop = "CP00"`, one value column
per period of `samplePeriods`. -/
def sampleData : WideTable :=
  { colNames := samplePeriods
  , rows :=
    [ ⟨"AT", "CP00", samplePeriods.map (sampleCell 0)⟩
    , ⟨"DE", "CP00", samplePeriods.map (sampleCell 1)⟩
    , ⟨"EA20", "CP00", samplePeriods.map (sampleCell 2)⟩ ] }

/-- The raw wide table returned by `eurostat.get_data_df` before any
validation: `idCols` are the metadata column labels actually present
(accessing `df["coicop"]` or `df["geo"]` raises `KeyError` when the label is
absent); `table` carries the row data under the model's row format. -/
structure RawTable where
  idCols : List String
  table : WideTable
deriving DecidableEq

/-- The three ways the underlying Eurostat fetch can go in
`fetch_inflation_data`: the library is not importable, the call raises, or
the call returns a table (of any shape). -/
inductive FetchOutcome
  | libMissing
  | raised
  | fetched (t : RawTable)

/-- An exception `fetch_inflation_data` itself lets escape. -/
inductive FetchExn
  | keyError
deriving DecidableEq

/-- The `geo\TIME_PERIOD → geo` column rename of `fetch_inflation_data`. -/
def renameGeoCol (t : RawTable) : RawTable :=
  { t with idCols := t.idCols.map (fun c => if c = "geo\\TIME_PERIOD" then "geo" else c) }

/-- The `fetch_inflation_data` function of `data.py`: fall back to the sample dataset when
the library is missing or the remote call raises; otherwise rename the
compound geo column, filter to the configured categories and countries plus
"EA19" (raising `KeyError` when the `coicop` or `geo` column is absent from
the fetched table), and drop "EA19" rows when "EA20" rows are also
present. -/
def fetchInflationData (cfg : ReportConfig) (outcome : FetchOutcome) :
    Except FetchExn WideTable :=
  match outcome with
  | .libMissing => .ok sampleData
  | .raised => .ok sampleData
  | .fetched t0 =>
    let t := renameGeoCol t0
    if t.idCols.contains "coicop" && t.idCols.contains "geo" then
      let countries := cfg.countries ++ ["EA19"]
      let filt := t.table.rows.filter (fun r =>
        COICOP_CATEGORIES.contains r.coicop && countries.contains r.geo)
      let geos := filt.map (·.geo)
      let filt2 := if geos.contains "EA20" && geos.contains "EA19" then
          filt.filter (fun r => r.geo != "EA19")
        else filt
      .ok { colNames := t.table.colNames, rows := filt2 }
    else .error .keyError

/-- The date-sorted all-items rows of one region — the series-building step
(`hist`) of `forecast_inflation`, named for use in theorem statements. -/
def regionHist (obs : List Obs) (g : String) : List Obs :=
  List.insertionSort Obs.dateLE
    ((obs.filter (fun r => r.coicop == "CP00")).filter (fun r => r.geo == g))

/-- Whether the melted cell of id row `r` under time column `c` survives
`process_inflation_data`: the column parses to a date, the cell coerces to
a number, and the date is within the historical window. -/
def keepCell (cfg : ReportConfig) (t : WideTable) (c : String) (r : WideRow) : Bool :=
  match parseYM c, cellAt t.colNames r.cells c with
  | some d, some _ => decide (cfg.historicalStartDate ≤ d)
  | _, _ => false

/-- Whether one melted row survives the drop-and-window steps of
`process_inflation_data` (the row form of `keepCell`). -/
def keepLong (cfg : ReportConfig) (lr : LongRow) : Bool :=
  match parseYM lr.period, lr.value with
  | some d, some _ => decide (cfg.historicalStartDate ≤ d)
  | _, _ => false

/-- Modelled from the spec, for refinement comparison only (this is the
claimed, not the implemented, behaviour): an ordinary-least-squares linear
fallback fitted over only the most recent `forecast_training_window`
periods of the series, against a zero-based month index; the forecast at
future index `i` is the prediction at `x = w + i` for a window of length
`w`. -/
def linRegWindowedSpec (cfg : ReportConfig) (ys : List Rat) (i : Nat) : Rat :=
  let w := ys.drop (ys.length - cfg.forecastTrainingWindow)
  let ab := linRegFit w
  ab.1 + ab.2 * ((w.length + i : Nat) : Rat)

/-- Exact square root on perfect-square rationals (an arbitrary value
elsewhere): a concrete instance of the `sqrtFn` parameter used by
witnesses. -/
def ratSqrt (q : Rat) : Rat :=
  if q < 0 then 0 else (Nat.sqrt q.num.toNat : Rat) / (Nat.sqrt q.den : Rat)

/-- A Holt-Winters oracle that always fails: the statsmodels fit raising on
every input (the spec's `ForecastInsufficientDataError` path). -/
def hwFail : HWOracle := fun _ _ => none

/-- Builds an all-items observation row (the fields `process_inflation_data`
would derive for a given geo/display-name/date/rate). -/
def mkObs (g : String) (c : String) (d : Date) (v : Rat) : Obs :=
  { date := d, year := d.year, geo := g, country := c, coicop := "CP00"
  , category := some "Gesamtinflation", rate := v }

/-- Two distinct all-items rows for the same date and region (display name
"A"): input of the C1 witness. -/
def obsDup : List Obs :=
  [mkObs "A" "A" ⟨2020, 1⟩ 2, mkObs "A" "A" ⟨2020, 1⟩ 1]

/-- Three-month series for region AT with rates 0, 0, 3: the full-series
fit and the claimed last-`forecast_training_window` fit disagree here. -/
def obsShort : List Obs :=
  [mkObs "AT" "Österreich" ⟨2020, 1⟩ 0, mkObs "AT" "Österreich" ⟨2020, 2⟩ 0,
   mkObs "AT" "Österreich" ⟨2020, 3⟩ 3]

/-- A config with a one-month horizon and a two-period training window. -/
def cfgShort : ReportConfig :=
  { countries := ["AT"], analysisStartDate := ⟨2020, 1⟩
  , historicalStartDate := ⟨2002, 1⟩, forecastMonths := 1
  , forecastTrainingWindow := 2, forecastDisplayLimit := ⟨2030, 1⟩ }

/-- A clean one-row, one-period wide table whose only date lies before
`historical_start_date` of the default config. -/
def wideOld : WideTable :=
  { colNames := ["1999-01"], rows := [⟨"AT", "CP00", [some 1]⟩] }

/-- Region AT with in-window rates 1, 2, 3 and one pre-window row: input of
the C4 statistics example. -/
def obsStats : List Obs :=
  [mkObs "AT" "Österreich" ⟨2019, 1⟩ 100, mkObs "AT" "Österreich" ⟨2020, 1⟩ 1,
   mkObs "AT" "Österreich" ⟨2020, 2⟩ 2, mkObs "AT" "Österreich" ⟨2020, 3⟩ 3]

/-- A two-month declining series for region AT (rates 10, 0): its linear
extrapolation is negative, so the forecast lower bound is negative. -/
def obsDecline : List Obs :=
  [mkObs "AT" "Österreich" ⟨2020, 1⟩ 10, mkObs "AT" "Österreich" ⟨2020, 2⟩ 0]

/-- The comparator example of the claim, taken literally: regions named
"A" and "B" (codes and display names), one all-items observation each on
the same date, A = 2.0, B = 1.5. -/
def obsAB : List Obs :=
  [mkObs "A" "A" ⟨2020, 1⟩ 2, mkObs "B" "B" ⟨2020, 1⟩ (3 / 2)]

/-- The comparator example with the designated regions of the code: AT
(primary, "Österreich") = 2.0 and EA20 (reference, "Eurozone") = 1.5 on the
same date. -/
def obsATEA : List Obs :=
  [mkObs "AT" "Österreich" ⟨2020, 1⟩ 2, mkObs "EA20" "Eurozone" ⟨2020, 1⟩ (3 / 2)]

/-- Region AT with a pre-analysis-window maximum (2019-01, rate 9) attained
again later (2021-01, rate 9), and minimum 1 attained on 2020-06 and
2021-06: input of the C8 witness (extreme outside the statistics window,
ties broken by the earlier date). -/
def obsTrend : List Obs :=
  [mkObs "AT" "Österreich" ⟨2021, 1⟩ 9, mkObs "AT" "Österreich" ⟨2019, 1⟩ 9,
   mkObs "AT" "Österreich" ⟨2020, 6⟩ 1, mkObs "AT" "Österreich" ⟨2021, 6⟩ 1,
   mkObs "AT" "Österreich" ⟨2020, 12⟩ 5]

/-- A fetched table whose id columns lack `coicop`: the schema-mismatch
case of the fetcher. -/
def rawNoCoicop : RawTable :=
  { idCols := ["geo\\TIME_PERIOD"], table := { colNames := ["2020-01"], rows := [] } }

/-- A well-formed fetched table with no row matching the configured
filters: the empty-result case of the fetcher. -/
def rawEmpty : RawTable :=
  { idCols := ["geo\\TIME_PERIOD", "coicop"]
  , table := { colNames := ["2020-01"], rows := [⟨"US", "CP00", [some 1]⟩] } }

/-- Observations in which the distinct region codes EA19 and EA20 share the
display name "Eurozone" (as in `COUNTRY_NAMES`), with EA19 processed first:
input of the C10 example. -/
def obsEuro : List Obs :=
  [mkObs "EA19" "Eurozone" ⟨2020, 1⟩ 1, mkObs "EA19" "Eurozone" ⟨2020, 2⟩ 2,
   mkObs "EA19" "Eurozone" ⟨2020, 3⟩ 3, mkObs "EA20" "Eurozone" ⟨2020, 1⟩ 4,
   mkObs "EA20" "Eurozone" ⟨2020, 2⟩ 6, mkObs "EA20" "Eurozone" ⟨2020, 3⟩ 8]

example : uniqueFirst ["a", "b", "a", "c"] = ["a", "b", "c"] := by decide

example : Date.addMonths ⟨2020, 12⟩ 1 = ⟨2021, 1⟩ := by decide

example : parseYM "2020-07" = some ⟨2020, 7⟩ := by decide

example : parseYM "2020-13" = none := by decide

example : hasDash "2020-07" = true ∧ hasDash "geo" = false := by decide

example : sampleVar [1, 2, 3] = 1 := by norm_num [sampleVar]

theorem lookupKey_upsert {β : Type} (k k' : String) (v : β) (l : List (String × β)) :
    lookupKey k (upsert k' v l) = if k' = k then some v else lookupKey k l := by
  induction l with
  | nil => simp [upsert, lookupKey]
  | cons hd tl ih =>
    obtain ⟨k0, v0⟩ := hd
    by_cases h0 : k0 = k'
    · subst h0
      by_cases h1 : k0 = k <;> simp [upsert, lookupKey, h1]
    · by_cases h1 : k0 = k
      · subst h1
        have hne' : ¬ k' = k0 := fun h => h0 h.symm
        simp [upsert, lookupKey, h0, hne']
      · simp [upsert, lookupKey, h0, h1, ih]

theorem mem_uniqueFirst {α : Type} [DecidableEq α] (l : List α) (x : α) :
    x ∈ uniqueFirst l ↔ x ∈ l := by
  induction l with
  | nil => simp [uniqueFirst]
  | cons hd tl ih =>
    simp only [uniqueFirst, List.mem_cons, List.mem_filter]
    constructor
    · rintro (rfl | ⟨hx, _⟩)
      · exact .inl rfl
      · exact .inr (ih.mp hx)
    · rintro (rfl | hx)
      · exact .inl rfl
      · by_cases hxe : x = hd
        · exact .inl hxe
        · exact .inr ⟨ih.mpr hx, by simpa using hxe⟩

theorem nodup_uniqueFirst {α : Type} [DecidableEq α] (l : List α) :
    (uniqueFirst l).Nodup := by
  induction l with
  | nil => simp [uniqueFirst]
  | cons hd tl ih =>
    simp only [uniqueFirst, List.nodup_cons]
    refine ⟨?_, ih.filter _⟩
    intro hmem
    rcases List.mem_filter.mp hmem with ⟨_, hne⟩
    simp at hne

theorem two_ne_le_length {α : Type} {l : List α} {a b : α} (ha : a ∈ l) (hb : b ∈ l)
    (hne : a ≠ b) : 2 ≤ l.length := by
  obtain ⟨s, t, rfl⟩ := List.append_of_mem ha
  rcases List.mem_append.mp hb with hbs | hbt
  · have := List.length_pos_of_mem hbs
    simp only [List.length_append, List.length_cons]
    omega
  · rcases List.mem_cons.mp hbt with h | hbt'
    · exact absurd h.symm hne
    · have := List.length_pos_of_mem hbt'
      simp only [List.length_append, List.length_cons]
      omega

/-- C1: for every observation set containing two distinct all-items (CP00)
rows with the same date and the same region (the display name, which is the
pivot's region key — in reshaper output the display name is a function of
the region code), `compare_regions` fails with the duplicate-observation
pivot error instead of aggregating. -/
theorem c1_compare_duplicate_raises (df : List Obs) (r1 r2 : Obs)
    (h1 : r1 ∈ df) (h2 : r2 ∈ df) (hne : r1 ≠ r2)
    (hc1 : r1.coicop = "CP00") (hc2 : r2.coicop = "CP00")
    (hdate : r1.date = r2.date) (hregion : r1.country = r2.country) :
    compareRegions df = .error .duplicateObservation := by
  have hm1 : r1 ∈ df.filter (fun r => r.coicop == "CP00") :=
    List.mem_filter.mpr ⟨h1, by simp [hc1]⟩
  have hm2 : r2 ∈ df.filter (fun r => r.coicop == "CP00") :=
    List.mem_filter.mpr ⟨h2, by simp [hc2]⟩
  have hdup : pivotHasDup (df.filter (fun r => r.coicop == "CP00")) = true := by
    apply List.any_eq_true.mpr
    refine ⟨r1, hm1, ?_⟩
    apply decide_eq_true
    apply two_ne_le_length (a := r1) (b := r2) ?_ ?_ hne
    · exact List.mem_filter.mpr ⟨hm1, by simp⟩
    · exact List.mem_filter.mpr ⟨hm2, by simp [hdate, hregion]⟩
  simp [compareRegions, hdup]

theorem c1_compare_duplicate_raises_witness :
    compareRegions obsDup = .error .duplicateObservation := by
  apply c1_compare_duplicate_raises obsDup (mkObs "A" "A" ⟨2020, 1⟩ 2)
    (mkObs "A" "A" ⟨2020, 1⟩ 1)
  · simp [obsDup]
  · simp [obsDup]
  · intro h
    have := congrArg Obs.rate h
    simp only [mkObs] at this
    norm_num at this
  · rfl
  · rfl
  · rfl
  · rfl

/-- C7, counterexample to the claim's concrete example taken literally: for
regions named "A" (primary) and "B" (reference) with A = 2.0 and B = 1.5 on
the same all-items date, the comparison table does NOT contain a difference
of 0.5 and a true flag — the derived columns are absent altogether, because
the code only adds them for the pivot columns "Österreich" and
"Eurozone". -/
theorem c7_claim_example_fails :
    (compareRegions obsAB).map
        (fun t => (t.hasDiff, t.rows.map (fun r => (r.diff, r.higher)))) =
      .ok (false, [(none, none)]) := by
  simp [compareRegions, obsAB, mkObs, pivotHasDup, uniqueFirst, Except.map]

/-- C7 (amended): the comparison table contains the difference column and
the higher-than flag column if and only if both the designated primary
region ("Österreich") and the designated reference region ("Eurozone")
appear as pivot columns; when absent, every row's derived cells are absent
(never zero-filled).  For the single observation pair Österreich = 2.0,
Eurozone = 1.5 on one date in the all-items category, the table has one row
with difference 0.5 and flag true. -/
theorem c7_difference_columns :
    (∀ df t, compareRegions df = .ok t →
      (t.hasDiff = true ↔ ("Österreich" ∈ t.cols ∧ "Eurozone" ∈ t.cols))) ∧
    (∀ df t, compareRegions df = .ok t → t.hasDiff = false →
      ∀ r ∈ t.rows, r.diff = none ∧ r.higher = none) ∧
    (∃ t, compareRegions obsATEA = .ok t ∧ t.hasDiff = true ∧
      t.rows.map (fun r => (r.diff, r.higher)) = [(some (1 / 2), some true)]) := by
  refine ⟨?_, ?_, ?_⟩
  · intro df t h
    cases hd : pivotHasDup (df.filter (fun r => r.coicop == "CP00"))
    · simp only [compareRegions, hd, Bool.false_eq_true, if_false] at h
      rcases h with ⟨rfl⟩
      simp
    · simp [compareRegions, hd] at h
  · intro df t h hflag r hr
    cases hd : pivotHasDup (df.filter (fun r => r.coicop == "CP00"))
    · simp only [compareRegions, hd, Bool.false_eq_true, if_false] at h
      rcases h with ⟨rfl⟩
      simp only at hflag
      rcases List.mem_map.mp hr with ⟨d, _, rfl⟩
      simp only [hflag]
      simp
    · simp [compareRegions, hd] at h
  · refine ⟨⟨["Österreich", "Eurozone"],
      [⟨⟨2020, 1⟩, [("Österreich", some 2), ("Eurozone", some (3 / 2))],
        some (1 / 2), some true⟩], true⟩, ?_, rfl, by norm_num⟩
    simp [compareRegions, obsATEA, mkObs, pivotHasDup, uniqueFirst]
    norm_num

theorem c7_difference_columns_witness :
    (false = true ↔ ("Österreich" ∈ ([] : List String) ∧ "Eurozone" ∈ ([] : List String))) := by
  have h := c7_difference_columns.1 ([] : List Obs) ⟨[], [], false⟩ (by rfl)
  simp only [compareRegions] at h
  exact h

/-- C9, counterexample: a fetch that SUCCEEDS but returns a table without a
`coicop` column (a schema mismatch) makes `fetch_inflation_data` raise
`KeyError` — the exception propagates to the caller instead of being
replaced by the synthetic sample dataset. -/
theorem c9_schema_mismatch_propagates :
    fetchInflationData defaultConfig (.fetched rawNoCoicop) = .error .keyError := by
  rfl

/-- C9 (amended): only failures of the fetch call itself are recovered —
when the Eurostat library is unavailable or `get_data_df` raises,
`fetch_inflation_data` returns the synthetic sample dataset, and any two
fallback invocations return the identical table (the dataset is a fixed,
deterministic constant).  A schema mismatch after a successful fetch
propagates `KeyError`, and an empty filtered result is returned as an empty
table, not replaced by the sample. -/
theorem c9_fetch_fallback :
    (∀ cfg, fetchInflationData cfg .libMissing = .ok sampleData) ∧
    (∀ cfg, fetchInflationData cfg .raised = .ok sampleData) ∧
    (∀ cfg cfg', fetchInflationData cfg .raised = fetchInflationData cfg' .libMissing) ∧
    (fetchInflationData defaultConfig (.fetched rawEmpty) =
        .ok { colNames := ["2020-01"], rows := [] } ∧
      ({ colNames := ["2020-01"], rows := [] } : WideTable) ≠ sampleData) := by
  refine ⟨fun _ => rfl, fun _ => rfl, fun _ _ => rfl, by rfl, ?_⟩
  intro h
  have := congrArg (fun t : WideTable => t.rows.length) h
  simp [sampleData] at this

theorem c9_fetch_fallback_witness :
    fetchInflationData defaultConfig .libMissing = .ok sampleData :=
  c9_fetch_fallback.1 defaultConfig

theorem ratSqrt_sq (q : Rat) (hq : 0 ≤ q) : ratSqrt (q * q) = q := by
  have hnn : 0 ≤ q * q := mul_self_nonneg q
  have hn : 0 ≤ q.num := Rat.num_nonneg.mpr hq
  obtain ⟨n, hn'⟩ := Int.eq_ofNat_of_zero_le hn
  rw [ratSqrt, if_neg (not_lt.mpr hnn)]
  rw [Rat.mul_self_num, Rat.mul_self_den, hn']
  rw [show ((n : Int) * n).toNat = n * n by rw [← Int.natCast_mul, Int.toNat_natCast]]
  rw [← Nat.pow_two n, Nat.sqrt_eq', ← Nat.pow_two q.den, Nat.sqrt_eq']
  have hdiv := Rat.num_div_den q
  rw [hn'] at hdiv
  simpa using hdiv

theorem lookupKey_isSome_regionFold {β : Type} (rows : String → List Obs)
    (ent : String → Obs → List Obs → β) :
    ∀ (geos : List String) (init : List (String × β)) (k : String),
      (lookupKey k (geos.foldl (fun acc g =>
        match rows g with
        | [] => acc
        | r0 :: rest => upsert r0.country (ent g r0 rest) acc) init)).isSome →
      (lookupKey k init).isSome ∨
        ∃ g ∈ geos, ∃ r0 rest, rows g = r0 :: rest ∧ r0.country = k := by
  intro geos
  induction geos with
  | nil => exact fun init k h => .inl h
  | cons g gs ih =>
    intro init k h
    rw [List.foldl_cons] at h
    rcases ih _ k h with h0 | ⟨g', hg', hex⟩
    · cases hfl : rows g with
      | nil =>
        simp only [hfl] at h0
        exact .inl h0
      | cons r0 rest =>
        simp only [hfl] at h0
        rw [lookupKey_upsert] at h0
        by_cases hk : r0.country = k
        · exact .inr ⟨g, List.mem_cons_self g gs, r0, rest, hfl, hk⟩
        · rw [if_neg hk] at h0
          exact .inl h0
    · exact .inr ⟨g', List.mem_cons_of_mem g hg', hex⟩

/-- C4: `calculate_statistics` first restricts to dates ≥
`analysis_start_date` (recomputing on the already-filtered set changes
nothing), omits — without error — every region left with no rows (every
result key is the display name of some in-window row), and for the region
with in-window values [1.0, 2.0, 3.0] of `obsStats` returns mean 2,
median 2, min 1, max 3, sample standard deviation 1 (the square root of the
`N-1`-denominator sample variance, for any `sqrtFn` that is a square root
on perfect squares) and latest 3, the value at the maximum date 2020-03. -/
theorem c4_statistics (sqrtFn : Rat → Rat)
    (hsq : ∀ q : Rat, 0 ≤ q → sqrtFn (q * q) = q) :
    (∀ cfg df, calculateStatistics sqrtFn cfg df =
      calculateStatistics sqrtFn cfg
        (df.filter (fun r => decide (cfg.analysisStartDate ≤ r.date)))) ∧
    (∀ cfg df k, (lookupKey k (calculateStatistics sqrtFn cfg df)).isSome →
      ∃ r ∈ df, cfg.analysisStartDate ≤ r.date ∧ r.country = k) ∧
    (lookupKey "Österreich" (calculateStatistics sqrtFn defaultConfig obsStats) =
      some ⟨2, 2, 1, 3, 1, 3, ⟨2020, 3⟩⟩) := by
  have h1 : sqrtFn 1 = 1 := by
    have := hsq 1 (by norm_num)
    simpa using this
  refine ⟨?_, ?_, ?_⟩
  · intro cfg df
    simp only [calculateStatistics, List.filter_filter, Bool.and_self]
  · intro cfg df k h
    simp only [calculateStatistics] at h
    rcases lookupKey_isSome_regionFold _ _ _ _ _ h with h0 | ⟨g, _, r0, rest, hfl, hk⟩
    · simp [lookupKey] at h0
    · have hr0 : r0 ∈ (df.filter (fun r => decide (cfg.analysisStartDate ≤ r.date))).filter
          (fun r => r.geo == g) := by
        rw [hfl]; exact List.mem_cons_self r0 rest
      have hr1 := (List.mem_filter.mp hr0).1
      have hr2 := List.mem_filter.mp hr1
      exact ⟨r0, hr2.1, of_decide_eq_true hr2.2, hk⟩
  · norm_num [calculateStatistics, obsStats, mkObs, defaultConfig, uniqueFirst,
      statEntry, medianR, sampleVar, upsert, lookupKey, List.insertionSort,
      List.orderedInsert, Obs.dateGE, Date.le_def, Date.idx, h1, min_def, max_def,
      StatEntry.mk.injEq]

theorem c4_statistics_witness :
    lookupKey "Österreich" (calculateStatistics ratSqrt defaultConfig obsStats) =
      some ⟨2, 2, 1, 3, 1, 3, ⟨2020, 3⟩⟩ :=
  (c4_statistics ratSqrt (fun q hq => ratSqrt_sq q hq)).2.2

/-- C10: the result mappings of `calculate_statistics` and
`identify_trends` are keyed by region display name (every key is the
`country` display name of some input row, never a region code), so when
the distinct codes EA19 and EA20 both carry the display name "Eurozone"
(as in `COUNTRY_NAMES`), the result holds a single entry for that name,
and the entry computed for the later-processed code (EA20, whose rows are
4, 6, 8) overwrites the one computed for EA19 (rows 1, 2, 3). -/
theorem c10_keyed_by_display_name :
    (∀ sqrtFn cfg df k, (lookupKey k (calculateStatistics sqrtFn cfg df)).isSome →
      ∃ r ∈ df, r.country = k) ∧
    (∀ df k, (lookupKey k (identifyTrends df)).isSome → ∃ r ∈ df, r.country = k) ∧
    (calculateStatistics ratSqrt defaultConfig obsEuro =
      [("Eurozone", ⟨6, 6, 4, 8, 2, 8, ⟨2020, 3⟩⟩)]) ∧
    (identifyTrends obsEuro = [("Eurozone", ⟨⟨2020, 3⟩, 8, ⟨2020, 1⟩, 4⟩)]) := by
  have h1 : ratSqrt (1 : Rat) = 1 := by
    have := ratSqrt_sq 1 (by norm_num)
    norm_num at this
    exact this
  have h4 : ratSqrt (4 : Rat) = 2 := by
    have := ratSqrt_sq 2 (by norm_num)
    norm_num at this
    exact this
  refine ⟨?_, ?_, ?_, ?_⟩
  · intro sqrtFn cfg df k h
    simp only [calculateStatistics] at h
    rcases lookupKey_isSome_regionFold _ _ _ _ _ h with h0 | ⟨g, _, r0, rest, hfl, hk⟩
    · simp [lookupKey] at h0
    · have hr0 : r0 ∈ (df.filter (fun r => decide (cfg.analysisStartDate ≤ r.date))).filter
          (fun r => r.geo == g) := by
        rw [hfl]; exact List.mem_cons_self r0 rest
      have hr1 := (List.mem_filter.mp (List.mem_filter.mp hr0).1).1
      exact ⟨r0, hr1, hk⟩
  · intro df k h
    simp only [identifyTrends] at h
    rcases lookupKey_isSome_regionFold _ _ _ _ _ h with h0 | ⟨g, _, r0, rest, hfl, hk⟩
    · simp [lookupKey] at h0
    · have hr0 : r0 ∈ List.insertionSort Obs.dateLE (df.filter (fun r => r.geo == g)) := by
        rw [hfl]; exact List.mem_cons_self r0 rest
      have hr1 := (List.perm_insertionSort Obs.dateLE _).mem_iff.mp hr0
      exact ⟨r0, (List.mem_filter.mp hr1).1, hk⟩
  · norm_num +decide [calculateStatistics, obsEuro, mkObs, defaultConfig, uniqueFirst,
      statEntry, medianR, sampleVar, upsert, lookupKey, List.insertionSort,
      List.orderedInsert, List.filter_cons, Obs.dateGE, Date.le_def, Date.idx, h1, h4,
      min_def, max_def, StatEntry.mk.injEq]
  · norm_num +decide [identifyTrends, trendEntry, obsEuro, mkObs, uniqueFirst, upsert,
      lookupKey, List.insertionSort, List.orderedInsert, List.filter_cons, Obs.dateLE,
      Date.le_def, Date.idx, TrendEntry.mk.injEq]

theorem c10_keyed_by_display_name_witness :
    ∃ r ∈ obsEuro, r.country = "Eurozone" := by
  apply c10_keyed_by_display_name.1 ratSqrt defaultConfig obsEuro "Eurozone"
  rw [c10_keyed_by_display_name.2.2.1]
  simp [lookupKey]

instance : IsTotal Obs Obs.dateLE := ⟨fun a b => Nat.le_total a.date.idx b.date.idx⟩

instance : IsTrans Obs Obs.dateLE := ⟨fun _ _ _ hab hbc => Nat.le_trans hab hbc⟩

instance : IsTotal FRow FRow.dateLE := ⟨fun a b => Nat.le_total a.date.idx b.date.idx⟩

instance : IsTrans FRow FRow.dateLE := ⟨fun _ _ _ hab hbc => Nat.le_trans hab hbc⟩

theorem foldl_choice_mem (c : Obs → Obs → Prop) [DecidableRel c] :
    ∀ (l : List Obs) (b : Obs),
      l.foldl (fun b y => if c b y then y else b) b = b ∨
        l.foldl (fun b y => if c b y then y else b) b ∈ l := by
  intro l
  induction l with
  | nil => exact fun b => .inl rfl
  | cons y0 l' ih =>
    intro b
    rw [List.foldl_cons]
    rcases ih (if c b y0 then y0 else b) with h | h
    · rw [h]
      by_cases hc : c b y0
      · right; rw [if_pos hc]; exact List.mem_cons_self _ _
      · left; rw [if_neg hc]
    · exact .inr (List.mem_cons_of_mem _ h)

theorem foldlMax_ub :
    ∀ (l : List Obs) (b : Obs), ∀ y ∈ b :: l,
      y.rate ≤ (l.foldl (fun b y => if b.rate < y.rate then y else b) b).rate := by
  intro l
  induction l with
  | nil =>
    intro b y hy
    rcases List.mem_cons.mp hy with rfl | h
    · exact le_refl _
    · simp at h
  | cons y0 l' ih =>
    intro b y hy
    rw [List.foldl_cons]
    have hb : b.rate ≤ (if b.rate < y0.rate then y0 else b).rate := by
      by_cases hc : b.rate < y0.rate
      · rw [if_pos hc]; exact le_of_lt hc
      · rw [if_neg hc]
    have hy0 : y0.rate ≤ (if b.rate < y0.rate then y0 else b).rate := by
      by_cases hc : b.rate < y0.rate
      · rw [if_pos hc]
      · rw [if_neg hc]; exact le_of_not_lt hc
    have hseed := ih (if b.rate < y0.rate then y0 else b) _ (List.mem_cons_self _ _)
    rcases List.mem_cons.mp hy with rfl | hy'
    · exact le_trans hb hseed
    · rcases List.mem_cons.mp hy' with rfl | hy''
      · exact le_trans hy0 hseed
      · exact ih _ y (List.mem_cons_of_mem _ hy'')

theorem foldlMin_lb :
    ∀ (l : List Obs) (b : Obs), ∀ y ∈ b :: l,
      (l.foldl (fun b y => if y.rate < b.rate then y else b) b).rate ≤ y.rate := by
  intro l
  induction l with
  | nil =>
    intro b y hy
    rcases List.mem_cons.mp hy with rfl | h
    · exact le_refl _
    · simp at h
  | cons y0 l' ih =>
    intro b y hy
    rw [List.foldl_cons]
    have hb : (if y0.rate < b.rate then y0 else b).rate ≤ b.rate := by
      by_cases hc : y0.rate < b.rate
      · rw [if_pos hc]; exact le_of_lt hc
      · rw [if_neg hc]
    have hy0 : (if y0.rate < b.rate then y0 else b).rate ≤ y0.rate := by
      by_cases hc : y0.rate < b.rate
      · rw [if_pos hc]
      · rw [if_neg hc]; exact le_of_not_lt hc
    have hseed := ih (if y0.rate < b.rate then y0 else b) _ (List.mem_cons_self _ _)
    rcases List.mem_cons.mp hy with rfl | hy'
    · exact le_trans hseed hb
    · rcases List.mem_cons.mp hy' with rfl | hy''
      · exact le_trans hseed hy0
      · exact ih _ y (List.mem_cons_of_mem _ hy'')

theorem foldlMax_first :
    ∀ (l : List Obs) (b : Obs), List.Sorted Obs.dateLE (b :: l) →
      ∀ y ∈ b :: l,
        y.rate = (l.foldl (fun b y => if b.rate < y.rate then y else b) b).rate →
        (l.foldl (fun b y => if b.rate < y.rate then y else b) b).date ≤ y.date := by
  intro l
  induction l with
  | nil =>
    intro b _ y hy _
    rcases List.mem_cons.mp hy with rfl | h
    · exact Nat.le_refl _
    · simp at h
  | cons y0 l' ih =>
    intro b hsort y hy hrate
    rw [List.foldl_cons] at hrate ⊢
    obtain ⟨hball, hsort'⟩ := List.sorted_cons.mp hsort
    obtain ⟨hy0all, hsortl'⟩ := List.sorted_cons.mp hsort'
    have hsortseed : List.Sorted Obs.dateLE ((if b.rate < y0.rate then y0 else b) :: l') := by
      by_cases hc : b.rate < y0.rate
      · rw [if_pos hc]; exact List.sorted_cons.mpr ⟨hy0all, hsortl'⟩
      · rw [if_neg hc]
        exact List.sorted_cons.mpr ⟨fun z hz => hball z (List.mem_cons_of_mem _ hz), hsortl'⟩
    have hubseed := foldlMax_ub l' (if b.rate < y0.rate then y0 else b) _
      (List.mem_cons_self _ _)
    rcases List.mem_cons.mp hy with hyb | hy'
    · rw [hyb] at hrate ⊢
      by_cases hc : b.rate < y0.rate
      · exfalso
        rw [if_pos hc] at hubseed hrate
        have hlt := lt_of_lt_of_le hc hubseed
        rw [← hrate] at hlt
        exact lt_irrefl _ hlt
      · rw [if_neg hc] at hsortseed hrate ⊢
        exact ih b hsortseed b (List.mem_cons_self _ _) hrate
    · rcases List.mem_cons.mp hy' with hyy | hy''
      · rw [hyy] at hrate ⊢
        by_cases hc : b.rate < y0.rate
        · rw [if_pos hc] at hsortseed hrate ⊢
          exact ih y0 hsortseed y0 (List.mem_cons_self _ _) hrate
        · rw [if_neg hc] at hsortseed hubseed hrate ⊢
          have hresb : b.rate =
              (l'.foldl (fun (b y : Obs) => if b.rate < y.rate then y else b) b).rate :=
            le_antisymm hubseed (by rw [← hrate]; exact le_of_not_lt hc)
          have hdb := ih b hsortseed b (List.mem_cons_self _ _) hresb
          exact Nat.le_trans hdb (hball y0 (List.mem_cons_self _ _))
      · by_cases hc : b.rate < y0.rate
        · rw [if_pos hc] at hsortseed hrate ⊢
          exact ih y0 hsortseed y (List.mem_cons_of_mem _ hy'') hrate
        · rw [if_neg hc] at hsortseed hrate ⊢
          exact ih b hsortseed y (List.mem_cons_of_mem _ hy'') hrate

theorem foldlMin_first :
    ∀ (l : List Obs) (b : Obs), List.Sorted Obs.dateLE (b :: l) →
      ∀ y ∈ b :: l,
        y.rate = (l.foldl (fun b y => if y.rate < b.rate then y else b) b).rate →
        (l.foldl (fun b y => if y.rate < b.rate then y else b) b).date ≤ y.date := by
  intro l
  induction l with
  | nil =>
    intro b _ y hy _
    rcases List.mem_cons.mp hy with rfl | h
    · exact Nat.le_refl _
    · simp at h
  | cons y0 l' ih =>
    intro b hsort y hy hrate
    rw [List.foldl_cons] at hrate ⊢
    obtain ⟨hball, hsort'⟩ := List.sorted_cons.mp hsort
    obtain ⟨hy0all, hsortl'⟩ := List.sorted_cons.mp hsort'
    have hsortseed : List.Sorted Obs.dateLE ((if y0.rate < b.rate then y0 else b) :: l') := by
      by_cases hc : y0.rate < b.rate
      · rw [if_pos hc]; exact List.sorted_cons.mpr ⟨hy0all, hsortl'⟩
      · rw [if_neg hc]
        exact List.sorted_cons.mpr ⟨fun z hz => hball z (List.mem_cons_of_mem _ hz), hsortl'⟩
    have hlbseed := foldlMin_lb l' (if y0.rate < b.rate then y0 else b) _
      (List.mem_cons_self _ _)
    rcases List.mem_cons.mp hy with hyb | hy'
    · rw [hyb] at hrate ⊢
      by_cases hc : y0.rate < b.rate
      · exfalso
        rw [if_pos hc] at hlbseed hrate
        have hlt := lt_of_le_of_lt hlbseed hc
        rw [← hrate] at hlt
        exact lt_irrefl _ hlt
      · rw [if_neg hc] at hsortseed hrate ⊢
        exact ih b hsortseed b (List.mem_cons_self _ _) hrate
    · rcases List.mem_cons.mp hy' with hyy | hy''
      · rw [hyy] at hrate ⊢
        by_cases hc : y0.rate < b.rate
        · rw [if_pos hc] at hsortseed hrate ⊢
          exact ih y0 hsortseed y0 (List.mem_cons_self _ _) hrate
        · rw [if_neg hc] at hsortseed hlbseed hrate ⊢
          have hresb : b.rate =
              (l'.foldl (fun (b y : Obs) => if y.rate < b.rate then y else b) b).rate :=
            le_antisymm (by rw [← hrate]; exact le_of_not_lt hc) hlbseed
          have hdb := ih b hsortseed b (List.mem_cons_self _ _) hresb
          exact Nat.le_trans hdb (hball y0 (List.mem_cons_self _ _))
      · by_cases hc : y0.rate < b.rate
        · rw [if_pos hc] at hsortseed hrate ⊢
          exact ih y0 hsortseed y (List.mem_cons_of_mem _ hy'') hrate
        · rw [if_neg hc] at hsortseed hrate ⊢
          exact ih b hsortseed y (List.mem_cons_of_mem _ hy'') hrate

theorem lookupKey_regionFold_skip {β : Type} (rows : String → List Obs)
    (ent : String → Obs → List Obs → β) (k : String) :
    ∀ (geos : List String),
      (∀ g' ∈ geos, ∀ s0 s, rows g' = s0 :: s → s0.country ≠ k) →
      ∀ init, lookupKey k (geos.foldl (fun acc g' =>
        match rows g' with
        | [] => acc
        | s0 :: s => upsert s0.country (ent g' s0 s) acc) init) = lookupKey k init := by
  intro geos
  induction geos with
  | nil => intro _ init; rfl
  | cons g1 gs ih =>
    intro hnone init
    rw [List.foldl_cons]
    rw [ih (fun g' hg' => hnone g' (List.mem_cons_of_mem _ hg'))]
    cases hfl : rows g1 with
    | nil => simp only [hfl]
    | cons s0 s =>
      simp only [hfl]
      rw [lookupKey_upsert,
        if_neg (hnone g1 (List.mem_cons_self _ _) s0 s hfl)]

theorem lookupKey_regionFold_unique {β : Type} (rows : String → List Obs)
    (ent : String → Obs → List Obs → β) (g : String) (k : String)
    (r0 : Obs) (rest : List Obs) (hg : rows g = r0 :: rest) (hk : r0.country = k)
    (hother : ∀ g', g' ≠ g → ∀ s0 s, rows g' = s0 :: s → s0.country ≠ k) :
    ∀ (geos : List String), geos.Nodup → g ∈ geos → ∀ init,
      lookupKey k (geos.foldl (fun acc g' =>
        match rows g' with
        | [] => acc
        | s0 :: s => upsert s0.country (ent g' s0 s) acc) init) =
      some (ent g r0 rest) := by
  intro geos
  induction geos with
  | nil => intro _ hmem; simp at hmem
  | cons g1 gs ih =>
    intro hnodup hmem init
    rw [List.foldl_cons]
    by_cases hg1 : g1 = g
    · subst hg1
      have hnotin : g1 ∉ gs := (List.nodup_cons.mp hnodup).1
      rw [lookupKey_regionFold_skip rows ent k gs
        (fun g' hg' => hother g' (fun he => hnotin (he ▸ hg')))]
      simp only [hg]
      rw [lookupKey_upsert, hk, if_pos rfl]
    · have hmem' : g ∈ gs := by
        rcases List.mem_cons.mp hmem with h | h
        · exact absurd h.symm hg1
        · exact h
      exact ih (List.nodup_cons.mp hnodup).2 hmem' _

/-- C8: `identify_trends` computes each region's maximum and minimum rate
over the full supplied observation set — the function receives no config
and applies no `analysis_start_date` filter, so an extreme may lie outside
the statistics window — and when the extreme value occurs on several dates
the reported occurrence is the chronologically first one.  Stated for sets
on which codes and display names are in one-to-one correspondence (the
reshaper's output), so that the display-name key identifies the region. -/
theorem c8_trend_extremes (df : List Obs) (g : String) (r : Obs)
    (hr : r ∈ df) (hg : r.geo = g)
    (hinj : ∀ r1 ∈ df, ∀ r2 ∈ df, r1.country = r2.country → r1.geo = r2.geo)
    (hcc : ∀ r1 ∈ df, ∀ r2 ∈ df, r1.geo = r2.geo → r1.country = r2.country) :
    ∃ e, lookupKey r.country (identifyTrends df) = some e ∧
      (∃ b ∈ df.filter (fun s => s.geo == g), b.rate = e.highestRate ∧
        b.date = e.highestDate ∧
        (∀ y ∈ df.filter (fun s => s.geo == g), y.rate ≤ b.rate) ∧
        (∀ y ∈ df.filter (fun s => s.geo == g), y.rate = b.rate → b.date ≤ y.date)) ∧
      (∃ b ∈ df.filter (fun s => s.geo == g), b.rate = e.lowestRate ∧
        b.date = e.lowestDate ∧
        (∀ y ∈ df.filter (fun s => s.geo == g), b.rate ≤ y.rate) ∧
        (∀ y ∈ df.filter (fun s => s.geo == g), y.rate = b.rate → b.date ≤ y.date)) := by
  have hrf : r ∈ df.filter (fun s => s.geo == g) :=
    List.mem_filter.mpr ⟨hr, by simp [hg]⟩
  have hperm := List.perm_insertionSort Obs.dateLE (df.filter (fun s => s.geo == g))
  cases hs : List.insertionSort Obs.dateLE (df.filter (fun s => s.geo == g)) with
  | nil =>
    rw [hs] at hperm
    rw [← hperm.nil_eq] at hrf
    simp at hrf
  | cons r0 rest =>
    rw [hs] at hperm
    have hsorted : List.Sorted Obs.dateLE (r0 :: rest) := by
      have := List.sorted_insertionSort Obs.dateLE (df.filter (fun s => s.geo == g))
      rw [hs] at this
      exact this
    have hr0f : r0 ∈ df.filter (fun s => s.geo == g) :=
      hperm.mem_iff.mp (List.mem_cons_self _ _)
    have hr0df := (List.mem_filter.mp hr0f).1
    have hr0g : r0.geo = g := by
      have := (List.mem_filter.mp hr0f).2
      simpa using this
    have hk : r0.country = r.country :=
      hcc r0 hr0df r hr (by rw [hr0g, hg])
    have hmemiff : ∀ y, y ∈ df.filter (fun s => s.geo == g) ↔ y ∈ r0 :: rest :=
      fun y => hperm.mem_iff.symm
    have hlookup : lookupKey r.country (identifyTrends df) = some (trendEntry r0 rest) := by
      have hother : ∀ g', g' ≠ g → ∀ s0 s,
          List.insertionSort Obs.dateLE (df.filter (fun x => x.geo == g')) = s0 :: s →
          s0.country ≠ r.country := by
        intro g' hne s0 s hseq hcountry
        have hs0 : s0 ∈ df.filter (fun x => x.geo == g') := by
          have hp := List.perm_insertionSort Obs.dateLE (df.filter (fun x => x.geo == g'))
          rw [hseq] at hp
          exact hp.mem_iff.mp (List.mem_cons_self _ _)
        have hs0df := (List.mem_filter.mp hs0).1
        have hs0g : s0.geo = g' := by
          have := (List.mem_filter.mp hs0).2
          simpa using this
        have := hinj s0 hs0df r hr hcountry
        exact hne (by rw [← hs0g, this, hg])
      have hgm : g ∈ uniqueFirst (df.map (fun x => x.geo)) :=
        (mem_uniqueFirst _ _).mpr (List.mem_map.mpr ⟨r, hr, hg⟩)
      have := lookupKey_regionFold_unique
        (fun g' => List.insertionSort Obs.dateLE (df.filter (fun x => x.geo == g')))
        (fun _ s0 s => trendEntry s0 s) g r.country r0 rest hs hk hother
        (uniqueFirst (df.map (fun x => x.geo))) (nodup_uniqueFirst _) hgm []
      exact this
    refine ⟨trendEntry r0 rest, hlookup, ?_, ?_⟩
    · refine ⟨rest.foldl (fun b y => if b.rate < y.rate then y else b) r0, ?_,
        by simp [trendEntry], by simp [trendEntry], ?_, ?_⟩
      · rcases foldl_choice_mem (fun b y => b.rate < y.rate) rest r0 with h | h
        · rw [h]; exact hr0f
        · exact (hmemiff _).mpr (List.mem_cons_of_mem _ h)
      · intro y hy
        exact foldlMax_ub rest r0 y ((hmemiff y).mp hy)
      · intro y hy hrate
        exact foldlMax_first rest r0 hsorted y ((hmemiff y).mp hy) hrate
    · refine ⟨rest.foldl (fun b y => if y.rate < b.rate then y else b) r0, ?_,
        by simp [trendEntry], by simp [trendEntry], ?_, ?_⟩
      · rcases foldl_choice_mem (fun b y => y.rate < b.rate) rest r0 with h | h
        · rw [h]; exact hr0f
        · exact (hmemiff _).mpr (List.mem_cons_of_mem _ h)
      · intro y hy
        exact foldlMin_lb rest r0 y ((hmemiff y).mp hy)
      · intro y hy hrate
        exact foldlMin_first rest r0 hsorted y ((hmemiff y).mp hy) hrate

theorem c8_trend_extremes_witness :
    ∃ e, lookupKey (mkObs "AT" "Österreich" ⟨2021, 1⟩ 9).country
        (identifyTrends obsTrend) = some e ∧
      (∃ b ∈ obsTrend.filter (fun s => s.geo == "AT"), b.rate = e.highestRate ∧
        b.date = e.highestDate ∧
        (∀ y ∈ obsTrend.filter (fun s => s.geo == "AT"), y.rate ≤ b.rate) ∧
        (∀ y ∈ obsTrend.filter (fun s => s.geo == "AT"),
          y.rate = b.rate → b.date ≤ y.date)) ∧
      (∃ b ∈ obsTrend.filter (fun s => s.geo == "AT"), b.rate = e.lowestRate ∧
        b.date = e.lowestDate ∧
        (∀ y ∈ obsTrend.filter (fun s => s.geo == "AT"), b.rate ≤ y.rate) ∧
        (∀ y ∈ obsTrend.filter (fun s => s.geo == "AT"),
          y.rate = b.rate → b.date ≤ y.date)) := by
  apply c8_trend_extremes obsTrend "AT" (mkObs "AT" "Österreich" ⟨2021, 1⟩ 9)
  · simp [obsTrend]
  · rfl
  · decide
  · decide

theorem length_filter_parsed (cfg : ReportConfig) :
    ∀ l : List LongRow,
      (((l.filterMap (fun lr =>
          match parseYM lr.period, lr.value with
          | some d, some v => some (⟨d, lr.geo, lr.coicop, v⟩ : ParsedRow)
          | _, _ => none)).filter
        (fun p => decide (cfg.historicalStartDate ≤ p.date))).length) =
      (l.filter (keepLong cfg)).length := by
  intro l
  induction l with
  | nil => rfl
  | cons lr l ih =>
    rw [List.filterMap_cons]
    cases hp : parseYM lr.period with
    | none =>
      simp only [List.filter_cons, keepLong, hp]
      cases hv : lr.value <;> simpa using ih
    | some d =>
      cases hv : lr.value with
      | none =>
        simp only [List.filter_cons, keepLong, hp, hv]
        simpa using ih
      | some v =>
        simp only [List.filter_cons, keepLong, hp, hv]
        by_cases hd : cfg.historicalStartDate ≤ d
        · simp [List.filter_cons, hd, ih]
        · simp [List.filter_cons, hd, ih]

theorem length_filter_flatMap {α β : Type} (f : α → List β) (q : β → Bool) :
    ∀ l : List α, ((l.flatMap f).filter q).length =
      (l.map (fun a => ((f a).filter q).length)).sum := by
  intro l
  induction l with
  | nil => rfl
  | cons a l ih =>
    rw [List.flatMap_cons, List.filter_append, List.length_append, ih,
      List.map_cons, List.sum_cons]

theorem length_filter_keepLong_col (cfg : ReportConfig) (t : WideTable) (c : String) :
    (((t.rows.map (fun r =>
        (⟨r.geo, r.coicop, c, cellAt t.colNames r.cells c⟩ : LongRow))).filter
      (keepLong cfg)).length) = (t.rows.filter (keepCell cfg t c)).length := by
  rw [List.filter_map, List.length_map]
  apply congrArg List.length
  apply List.filter_congr
  intro r _
  cases hp : parseYM c <;> cases hv : cellAt t.colNames r.cells c <;>
    simp [keepLong, keepCell, Function.comp, hp, hv]

/-- C3 (amended): the long-form row count of `process_inflation_data`
equals, summed over the time columns, the number of id rows whose melted
cell survives all three drops — date parse, numeric coercion, AND the
`historical_start_date` window (the claim omitted the window); in
particular, for a wide table whose period columns all parse to in-window
dates and whose cells are all numeric, the count is (number of period
columns × number of id rows). -/
theorem c3_reshape_count (cfg : ReportConfig) (t : WideTable) :
    ((processInflationData cfg t).length =
      ((t.colNames.filter hasDash).map
        (fun c => (t.rows.filter (keepCell cfg t c)).length)).sum) ∧
    ((∀ c ∈ t.colNames.filter hasDash, ∃ d, parseYM c = some d ∧
        cfg.historicalStartDate ≤ d) →
      (∀ c ∈ t.colNames.filter hasDash, ∀ r ∈ t.rows,
        (cellAt t.colNames r.cells c).isSome) →
      (processInflationData cfg t).length =
        (t.colNames.filter hasDash).length * t.rows.length) := by
  have hpart1 : (processInflationData cfg t).length =
      ((t.colNames.filter hasDash).map
        (fun c => (t.rows.filter (keepCell cfg t c)).length)).sum := by
    simp only [processInflationData, meltLong]
    rw [(List.perm_insertionSort _ _).length_eq, List.length_map,
      length_filter_parsed cfg, length_filter_flatMap]
    apply congrArg List.sum
    apply List.map_congr_left
    intro c _
    exact length_filter_keepLong_col cfg t c
  refine ⟨hpart1, fun hdates hcells => ?_⟩
  rw [hpart1]
  have hall : ∀ c ∈ t.colNames.filter hasDash,
      (t.rows.filter (keepCell cfg t c)).length = t.rows.length := by
    intro c hc
    rw [List.filter_eq_self.mpr]
    intro r hr
    obtain ⟨d, hp, hd⟩ := hdates c hc
    have hv := hcells c hc r hr
    rw [keepCell, hp]
    cases hcell : cellAt t.colNames r.cells c with
    | none => rw [hcell] at hv; simp at hv
    | some v => simp [hd]
  rw [List.map_congr_left hall, List.map_const', List.sum_replicate, smul_eq_mul]

/-- C3, counterexample to the claim as stated: a wide table with one id
row and one period column, whose period "1999-01" parses and whose cell is
numeric (no malformed cell anywhere), yields 0 long-form rows instead of
the claimed 1 × 1 = 1, because `process_inflation_data` additionally drops
dates before `historical_start_date` (2002-01 in the default config). -/
theorem c3_claim_count_fails :
    (∀ c ∈ wideOld.colNames.filter hasDash, (parseYM c).isSome) ∧
    (∀ c ∈ wideOld.colNames.filter hasDash, ∀ r ∈ wideOld.rows,
      (cellAt wideOld.colNames r.cells c).isSome) ∧
    (wideOld.colNames.filter hasDash).length * wideOld.rows.length = 1 ∧
    (processInflationData defaultConfig wideOld).length = 0 := by
  refine ⟨by decide, by decide, by decide, by decide⟩

theorem c3_reshape_count_witness :
    (processInflationData defaultConfig wideOld).length =
      ((wideOld.colNames.filter hasDash).map
        (fun c => (wideOld.rows.filter (keepCell defaultConfig wideOld c)).length)).sum :=
  (c3_reshape_count defaultConfig wideOld).1

theorem regionForecastRows_geo (hw : HWOracle) (sq : Rat → Rat) (cfg : ReportConfig)
    (df : List Obs) (g : String) :
    ∀ r ∈ regionForecastRows hw sq cfg df g, r.geo = g := by
  intro r hr
  simp only [regionForecastRows] at hr
  cases hl : (List.insertionSort Obs.dateLE (df.filter (fun x => x.geo == g))).getLast? with
  | none => rw [hl] at hr; simp at hr
  | some lastRow =>
    rw [hl] at hr
    simp only at hr
    rcases List.mem_map.mp hr with ⟨i, _, rfl⟩
    rfl

theorem regionForecastRows_nil (hw : HWOracle) (sq : Rat → Rat) (cfg : ReportConfig)
    (df : List Obs) (g : String) (hnil : df.filter (fun x => x.geo == g) = []) :
    regionForecastRows hw sq cfg df g = [] := by
  simp [regionForecastRows, hnil]

theorem flatMap_filter_geo (hw : HWOracle) (sq : Rat → Rat) (cfg : ReportConfig)
    (df : List Obs) (g : String) :
    ∀ geos : List String, geos.Nodup →
      ((geos.flatMap (regionForecastRows hw sq cfg df)).filter (fun r => r.geo == g)) =
      if g ∈ geos then regionForecastRows hw sq cfg df g else [] := by
  intro geos
  induction geos with
  | nil => intro _; simp
  | cons g1 gs ih =>
    intro hnodup
    rw [List.flatMap_cons, List.filter_append, ih (List.nodup_cons.mp hnodup).2]
    by_cases hgg : g1 = g
    · subst hgg
      have hnotin : g1 ∉ gs := (List.nodup_cons.mp hnodup).1
      rw [if_neg hnotin, if_pos (List.mem_cons_self _ _)]
      rw [List.filter_eq_self.mpr
        (fun r hr => by simp [regionForecastRows_geo hw sq cfg df g1 r hr])]
      simp
    · rw [List.filter_eq_nil_iff.mpr (fun r hr => by
        simp [regionForecastRows_geo hw sq cfg df g1 r hr]
        exact fun he => hgg he)]
      by_cases hmem : g ∈ gs
      · rw [if_pos hmem, if_pos (List.mem_cons_of_mem _ hmem)]
        simp
      · rw [if_neg hmem, if_neg (by
          intro hm
          rcases List.mem_cons.mp hm with h | h
          · exact hgg h.symm
          · exact hmem h)]
        simp

theorem forecast_filter_geo_perm (hw : HWOracle) (sq : Rat → Rat) (cfg : ReportConfig)
    (obs : List Obs) (g : String) :
    ((forecastInflation hw sq cfg obs).filter (fun r => r.geo == g)).Perm
      ((regionForecastRows hw sq cfg (obs.filter (fun r => r.coicop == "CP00")) g).filter
        (fun r => decide (r.date ≤ cfg.forecastDisplayLimit))) := by
  simp only [forecastInflation]
  cases hdf : (obs.filter (fun r => r.coicop == "CP00")).isEmpty with
  | true =>
    have hnil := List.isEmpty_iff.mp hdf
    rw [hnil]
    simp only [List.isEmpty_nil, if_true, List.filter_nil]
    rw [regionForecastRows_nil hw sq cfg [] g (by simp)]
    simp
  | false =>
    simp only [Bool.false_eq_true, if_false]
    have hp := (List.perm_insertionSort FRow.dateLE
      (((uniqueFirst ((obs.filter (fun r => r.coicop == "CP00")).map (fun x => x.geo))).flatMap
          (regionForecastRows hw sq cfg (obs.filter (fun r => r.coicop == "CP00")))).filter
        (fun r => decide (r.date ≤ cfg.forecastDisplayLimit)))).filter
      (fun r => r.geo == g)
    refine hp.trans ?_
    rw [List.filter_filter]
    rw [List.filter_congr (fun r _ => Bool.and_comm (r.geo == g)
      (decide (r.date ≤ cfg.forecastDisplayLimit)))]
    rw [← List.filter_filter]
    rw [flatMap_filter_geo hw sq cfg _ g _ (nodup_uniqueFirst _)]
    by_cases hmem : g ∈ uniqueFirst ((obs.filter (fun r => r.coicop == "CP00")).map
        (fun x => x.geo))
    · rw [if_pos hmem]
    · rw [if_neg hmem]
      rw [regionForecastRows_nil hw sq cfg _ g (List.filter_eq_nil_iff.mpr (fun r hr => by
        intro hgeq
        apply hmem
        apply (mem_uniqueFirst _ _).mpr
        refine List.mem_map.mpr ⟨r, hr, ?_⟩
        simpa using hgeq))]

/-- C5: for every region with a non-empty regularized series (and
per-region distinct dates — the reshaper's uniqueness invariant; pandas
raises outside it), `forecast_inflation` produces, as a multiset, exactly
the points dated 1, …, `forecast_months` calendar months after the
region's last historical date with the points beyond
`forecast_display_limit` dropped; the returned table is in ascending date
order; and the calendar-month step rolls December over into January of the
following year. -/
theorem c5_forecast_dates (hw : HWOracle) (sq : Rat → Rat) (cfg : ReportConfig)
    (obs : List Obs) (g : String) (lastRow : Obs)
    (_hdup : ∀ g' : String,
      (((obs.filter (fun r => r.coicop == "CP00")).filter (fun r => r.geo == g')).map
        (fun r => r.date)).Nodup)
    (hlast : (regionHist obs g).getLast? = some lastRow) :
    (((forecastInflation hw sq cfg obs).filter (fun r => r.geo == g)).map
        (fun r => r.date)).Perm
      (((List.range cfg.forecastMonths).map
          (fun i => lastRow.date.addMonths (i + 1))).filter
        (fun d => decide (d ≤ cfg.forecastDisplayLimit))) ∧
    List.Sorted FRow.dateLE (forecastInflation hw sq cfg obs) ∧
    (∀ y : Nat, Date.addMonths ⟨y, 12⟩ 1 = ⟨y + 1, 1⟩) := by
  refine ⟨?_, ?_, ?_⟩
  · have hperm := (forecast_filter_geo_perm hw sq cfg obs g).map (fun r => r.date)
    refine hperm.trans ?_
    have heq : ((regionForecastRows hw sq cfg (obs.filter (fun r => r.coicop == "CP00")) g).filter
        (fun r => decide (r.date ≤ cfg.forecastDisplayLimit))).map (fun r => r.date) =
      ((List.range cfg.forecastMonths).map (fun i => lastRow.date.addMonths (i + 1))).filter
        (fun d => decide (d ≤ cfg.forecastDisplayLimit)) := by
      simp only [regionForecastRows]
      rw [show (List.insertionSort Obs.dateLE ((obs.filter (fun r => r.coicop == "CP00")).filter
          (fun r => r.geo == g))).getLast? = some lastRow from hlast]
      simp only [List.filter_map, List.map_map, Function.comp]
      rfl
    rw [heq]
  · simp only [forecastInflation]
    cases hdf : (obs.filter (fun r => r.coicop == "CP00")).isEmpty with
    | true => simp
    | false =>
      simp only [Bool.false_eq_true, if_false]
      exact List.sorted_insertionSort FRow.dateLE _
  · intro y
    simp only [Date.addMonths, Date.ofIdx, Date.idx, Date.mk.injEq]
    omega

theorem c5_forecast_dates_witness :
    (((forecastInflation hwFail ratSqrt cfgShort obsDecline).filter
        (fun r => r.geo == "AT")).map (fun r => r.date)).Perm
      (((List.range cfgShort.forecastMonths).map
          (fun i => (mkObs "AT" "Österreich" ⟨2020, 2⟩ 0).date.addMonths (i + 1))).filter
        (fun d => decide (d ≤ cfgShort.forecastDisplayLimit))) ∧
    List.Sorted FRow.dateLE (forecastInflation hwFail ratSqrt cfgShort obsDecline) ∧
    (∀ y : Nat, Date.addMonths ⟨y, 12⟩ 1 = ⟨y + 1, 1⟩) := by
  apply c5_forecast_dates hwFail ratSqrt cfgShort obsDecline "AT"
    (mkObs "AT" "Österreich" ⟨2020, 2⟩ 0)
  · intro g'
    by_cases h : g' = "AT"
    · subst h; decide
    · have hat : ∀ r ∈ obsDecline, r.geo = "AT" := by decide
      rw [List.filter_eq_nil_iff.mpr (fun r hr => ?_)]
      · simp
      · have hg := hat r (List.mem_filter.mp hr).1
        simp [hg]
        exact fun he => h he.symm
  · norm_num [regionHist, obsDecline, mkObs, List.insertionSort, List.orderedInsert,
      Obs.dateLE, Date.le_def, Date.idx, List.getLast?]

/-- C2 (amended): when a region's regularized series has fewer than 24
periods, or the seasonal exponential-smoothing fit raises,
`forecast_inflation` falls back to ordinary least-squares linear regression
fitted over the region's ENTIRE regularized series against a zero-based
month index — not over only the most recent `forecast_training_window`
periods; the forecaster never reads `forecast_training_window` at all
(changing it changes nothing). -/
theorem c2_linear_fallback (hw : HWOracle) (sq : Rat → Rat) (cfg : ReportConfig)
    (obs : List Obs) (g : String) (lastRow : Obs)
    (_hdup : ∀ g' : String,
      (((obs.filter (fun r => r.coicop == "CP00")).filter (fun r => r.geo == g')).map
        (fun r => r.date)).Nodup)
    (hlast : (regionHist obs g).getLast? = some lastRow)
    (hfb : ((regionHist obs g).map (fun r => r.rate)).length < 24 ∨
      hw ((regionHist obs g).map (fun r => r.rate)) cfg.forecastMonths = none) :
    (∀ r ∈ forecastInflation hw sq cfg obs, r.geo = g →
      ∃ i < cfg.forecastMonths, r.date = lastRow.date.addMonths (i + 1) ∧
        r.rate = (forecastLinearRegression sq
          ((regionHist obs g).map (fun r => r.rate))).1 i) ∧
    (∀ w, forecastInflation hw sq { cfg with forecastTrainingWindow := w } obs =
      forecastInflation hw sq cfg obs) := by
  constructor
  · intro r hr hg
    have hmem : r ∈ (forecastInflation hw sq cfg obs).filter (fun x => x.geo == g) :=
      List.mem_filter.mpr ⟨hr, by simp [hg]⟩
    have hmem2 := (forecast_filter_geo_perm hw sq cfg obs g).mem_iff.mp hmem
    have hmem3 := (List.mem_filter.mp hmem2).1
    have hHW : forecastHoltWinters hw ((regionHist obs g).map (fun r => r.rate))
        cfg.forecastMonths = none := by
      rcases hfb with hlen | hnone
      · simp only [forecastHoltWinters]
        rw [if_pos hlen]
      · simp only [forecastHoltWinters]
        by_cases hlen : ((regionHist obs g).map (fun r => r.rate)).length < 24
        · rw [if_pos hlen]
        · rw [if_neg hlen]
          exact hnone
    simp only [regionHist] at hHW
    simp only [regionForecastRows] at hmem3
    rw [show (List.insertionSort Obs.dateLE ((obs.filter (fun r => r.coicop == "CP00")).filter
        (fun r => r.geo == g))).getLast? = some lastRow from hlast] at hmem3
    simp only [hHW] at hmem3
    rcases List.mem_map.mp hmem3 with ⟨i, hi, rfl⟩
    refine ⟨i, List.mem_range.mp hi, rfl, ?_⟩
    simp only [regionHist]
  · intro w
    cases cfg
    rfl

/-- C2, counterexample to the claim as stated: region AT's three-month
series [0, 0, 3] with `forecast_training_window = 2` triggers the fallback
(3 < 24); fitting over the whole series predicts 4 for the next month,
while the claimed fit over only the most recent 2 periods would predict 6. -/
theorem c2_claim_window_fails :
    (forecastInflation hwFail (fun q => q) cfgShort obsShort).map (fun r => r.rate) =
      [4] ∧
    linRegWindowedSpec cfgShort ((regionHist obsShort "AT").map (fun r => r.rate)) 0 =
      6 ∧
    (4 : Rat) ≠ 6 := by
  have hr1 : List.range 1 = [0] := by decide
  have hr2 : List.range 2 = [0, 1] := by decide
  have hr3 : List.range 3 = [0, 1, 2] := by decide
  refine ⟨?_, ?_, by norm_num⟩
  · norm_num +decide [forecastInflation, regionForecastRows, forecastHoltWinters,
      forecastLinearRegression, linRegFit, sampleVar, hwFail, obsShort, mkObs, cfgShort,
      uniqueFirst, List.insertionSort, List.orderedInsert, List.filter_cons,
      Obs.dateLE, FRow.dateLE, Date.le_def, Date.idx, Date.addMonths, Date.ofIdx,
      List.getLast?, lookupKey, hr1, hr2, hr3]
  · norm_num [linRegWindowedSpec, linRegFit, regionHist, obsShort, mkObs, cfgShort,
      List.insertionSort, List.orderedInsert, List.filter_cons, Obs.dateLE,
      Date.le_def, Date.idx, hr1, hr2, hr3]

theorem c2_linear_fallback_witness :
    (∀ r ∈ forecastInflation hwFail (fun q => q) cfgShort obsShort,
      r.geo = "AT" →
      ∃ i < cfgShort.forecastMonths,
        r.date = (mkObs "AT" "Österreich" ⟨2020, 3⟩ 3).date.addMonths (i + 1) ∧
        r.rate = (forecastLinearRegression (fun q => q)
          ((regionHist obsShort "AT").map (fun r => r.rate))).1 i) ∧
    (∀ w, forecastInflation hwFail (fun q => q)
        { cfgShort with forecastTrainingWindow := w } obsShort =
      forecastInflation hwFail (fun q => q) cfgShort obsShort) := by
  apply c2_linear_fallback hwFail (fun q => q) cfgShort obsShort "AT"
    (mkObs "AT" "Österreich" ⟨2020, 3⟩ 3)
  · intro g'
    by_cases h : g' = "AT"
    · subst h; decide
    · have hat : ∀ r ∈ obsShort, r.geo = "AT" := by decide
      rw [List.filter_eq_nil_iff.mpr (fun r hr => ?_)]
      · simp
      · have hg := hat r (List.mem_filter.mp hr).1
        simp [hg]
        exact fun he => h he.symm
  · norm_num [regionHist, obsShort, mkObs, List.insertionSort, List.orderedInsert,
      Obs.dateLE, Date.le_def, Date.idx, List.getLast?]
  · left
    decide

theorem regionForecastRows_bounds (hw : HWOracle) (sq : Rat → Rat) (cfg : ReportConfig)
    (df : List Obs) (g : String) :
    ∀ r ∈ regionForecastRows hw sq cfg df g,
      (r.upper - r.rate = r.rate - r.lower ∧
        ∀ r' ∈ regionForecastRows hw sq cfg df g,
          r.upper - r.rate = r'.upper - r'.rate) := by
  intro r hr
  simp only [regionForecastRows] at hr ⊢
  cases hl : (List.insertionSort Obs.dateLE (df.filter (fun x => x.geo == g))).getLast? with
  | none =>
    rw [hl] at hr
    simp at hr
  | some lastRow =>
    rw [hl] at hr
    rcases List.mem_map.mp hr with ⟨i, _, rfl⟩
    constructor
    · dsimp only
      ring
    · intro r' hr'
      rcases List.mem_map.mp hr' with ⟨j, _, rfl⟩
      dsimp only
      ring

/-- C6: every forecast point's prediction bounds are symmetric around the
point estimate (upper − point = point − lower), the width is constant
across all rows of one region — 1.96 × the region's residual standard
deviation, with no horizon-dependent widening factor — and the lower bound
is not clamped at zero: on the declining two-month series `obsDecline` the
produced lower bound is negative. -/
theorem c6_prediction_bounds (hw : HWOracle) (sq : Rat → Rat) (cfg : ReportConfig)
    (obs : List Obs)
    (_hdup : ∀ g' : String,
      (((obs.filter (fun r => r.coicop == "CP00")).filter (fun r => r.geo == g')).map
        (fun r => r.date)).Nodup) :
    (∀ r ∈ forecastInflation hw sq cfg obs, r.upper - r.rate = r.rate - r.lower) ∧
    (∀ r1 ∈ forecastInflation hw sq cfg obs, ∀ r2 ∈ forecastInflation hw sq cfg obs,
      r1.geo = r2.geo → r1.upper - r1.rate = r2.upper - r2.rate) ∧
    (∃ r ∈ forecastInflation hwFail (fun q => q) cfgShort obsDecline, r.lower < 0) := by
  have hblock : ∀ r ∈ forecastInflation hw sq cfg obs,
      r ∈ regionForecastRows hw sq cfg (obs.filter (fun x => x.coicop == "CP00")) r.geo := by
    intro r hr
    have hmem : r ∈ (forecastInflation hw sq cfg obs).filter (fun x => x.geo == r.geo) :=
      List.mem_filter.mpr ⟨hr, by simp⟩
    have hmem2 := (forecast_filter_geo_perm hw sq cfg obs r.geo).mem_iff.mp hmem
    exact (List.mem_filter.mp hmem2).1
  refine ⟨?_, ?_, ?_⟩
  · intro r hr
    exact (regionForecastRows_bounds hw sq cfg _ r.geo r (hblock r hr)).1
  · intro r1 h1 r2 h2 hgeo
    have hb2 := hblock r2 h2
    rw [← hgeo] at hb2
    exact (regionForecastRows_bounds hw sq cfg _ r1.geo r1 (hblock r1 h1)).2 r2 hb2
  · have hr1 : List.range 1 = [0] := by decide
    have hr2 : List.range 2 = [0, 1] := by decide
    have hout : forecastInflation hwFail (fun q => q) cfgShort obsDecline =
        [⟨⟨2020, 3⟩, "AT", "Österreich", -10, -10, -10⟩] := by
      norm_num +decide [forecastInflation, regionForecastRows, forecastHoltWinters,
        forecastLinearRegression, linRegFit, sampleVar, hwFail, obsDecline, mkObs,
        cfgShort, uniqueFirst, List.insertionSort, List.orderedInsert, List.filter_cons,
        Obs.dateLE, FRow.dateLE, Date.le_def, Date.idx, Date.addMonths, Date.ofIdx,
        List.getLast?, lookupKey, hr1, hr2, FRow.mk.injEq]
    refine ⟨⟨⟨2020, 3⟩, "AT", "Österreich", -10, -10, -10⟩, ?_, by norm_num⟩
    rw [hout]
    exact List.mem_cons_self _ _

theorem c6_prediction_bounds_witness :
    (⟨⟨2020, 3⟩, "AT", "Österreich", -10, -10, -10⟩ : FRow).upper -
        (⟨⟨2020, 3⟩, "AT", "Österreich", -10, -10, -10⟩ : FRow).rate =
      (⟨⟨2020, 3⟩, "AT", "Österreich", -10, -10, -10⟩ : FRow).rate -
        (⟨⟨2020, 3⟩, "AT", "Österreich", -10, -10, -10⟩ : FRow).lower := by
  have hd : ∀ g' : String,
      (((obsDecline.filter (fun r => r.coicop == "CP00")).filter
        (fun r => r.geo == g')).map (fun r => r.date)).Nodup := by
    intro g'
    by_cases h : g' = "AT"
    · subst h; decide
    · have hat : ∀ r ∈ obsDecline, r.geo = "AT" := by decide
      rw [List.filter_eq_nil_iff.mpr (fun r hr => ?_)]
      · simp
      · have hg := hat r (List.mem_filter.mp hr).1
        simp [hg]
        exact fun he => h he.symm
  apply (c6_prediction_bounds hwFail (fun q => q) cfgShort obsDecline hd).1
  have hr1 : List.range 1 = [0] := by decide
  have hr2 : List.range 2 = [0, 1] := by decide
  have hout : forecastInflation hwFail (fun q => q) cfgShort obsDecline =
      [⟨⟨2020, 3⟩, "AT", "Österreich", -10, -10, -10⟩] := by
    norm_num +decide [forecastInflation, regionForecastRows, forecastHoltWinters,
      forecastLinearRegression, linRegFit, sampleVar, hwFail, obsDecline, mkObs,
      cfgShort, uniqueFirst, List.insertionSort, List.orderedInsert, List.filter_cons,
      Obs.dateLE, FRow.dateLE, Date.le_def, Date.idx, Date.addMonths, Date.ofIdx,
      List.getLast?, lookupKey, hr1, hr2, FRow.mk.injEq]
  rw [hout]
  exact List.mem_cons_self _ _
